import Mathlib

/-!
Verification of the sample-parser expression language
(`sample-parser.py`: lexer, recursive-descent parser, pretty-printer).

The development is a shallow embedding of the Python source.

* A Python token stream is a `List TokenInfo`; the generator-based
  tokenizer becomes a function returning the whole token list, or a
  failure when a scan position matches no rule (the source fails there
  through its `assert i == len(line)` statement, a bare `AssertionError`).
* Python exceptions become the explicit error type `PyError`; every
  fallible embedded function returns `Except PyError _` (or `Option`
  where the Python function returns `None` by falling off its body).
* The recursive-descent parser and the renderer are given a numeric
  fuel argument so that all recursion is structural and every
  definition evaluates inside the kernel.  Fuel exhaustion is reported
  through the artificial error `PyError.fuelExhausted`; the wrappers
  `parse` and `froot` supply fuel that dominates the recursion depth of
  the source on the same input (CPython itself is bounded by its
  recursion limit), so the artificial error does not arise on the
  inputs considered here.
* Regular-expression matchers from the token table are translated one
  by one into explicit character-list matchers with Python `re`
  semantics: first alternative wins, quantifiers are greedy.
-/

namespace SampleParser

/-- Embeds the `TokenInfo` named tuple of the source.  The field `stop`
renders the source field named `end` (a Lean keyword). -/
structure TokenInfo where
  type : String
  variant : String
  string : String
  start : Nat
  stop : Nat
  line : Nat
deriving Repr, DecidableEq

/-- The apostrophe character, written by code so that no quote
character appears inside a string literal of this file. -/
def aposChar : Char := Char.ofNat 39

/-- One-character apostrophe string. -/
def aposStr : String := String.singleton aposChar

/-- The matcher of a single entry of the token rule table: either a
verbatim literal (the source escapes literals with `re.escape`) or one
of the four regex patterns appearing in the table. -/
inductive Matcher where
  | lit (s : List Char)
  | spaceRun
  | numberPat
  | hashWord (base : List Char)
  | wordRun
deriving Repr, DecidableEq

/-- Python `\s` on the ASCII inputs of this grammar. -/
def isPySpace (c : Char) : Bool :=
  c = ' ' || c = '\t' || c = '\n' || c = '\r' || c = '\x0b' || c = '\x0c'

/-- Character class `[a-zA-Z_\\]` of the `word` rule. -/
def isWordChar (c : Char) : Bool :=
  c.isAlpha || c = '_' || c = '\\'

/-- Length of the match of a single rule at the start of `cs`, `none`
when the rule does not match there.  Mirrors Python `re` semantics of
the individual table patterns:
`\s+` and `[a-zA-Z_\\]+` take the maximal nonempty run;
`(?:\d+|\d*\.\d+)` tries the first alternative first, so a leading
digit run wins even when a longer decimal match exists;
`#item(?:_\d+)?` / `#index(?:_\d+)?` take the optional suffix only when
an underscore with at least one digit follows. -/
def matchLen : Matcher → List Char → Option Nat
  | .lit s, cs => if s.isPrefixOf cs then some s.length else none
  | .spaceRun, cs =>
      let n := (cs.takeWhile isPySpace).length
      if n = 0 then none else some n
  | .numberPat, cs =>
      let d := (cs.takeWhile Char.isDigit).length
      if d ≠ 0 then some d
      else
        match cs with
        | '.' :: cs2 =>
            let d2 := (cs2.takeWhile Char.isDigit).length
            if d2 = 0 then none else some (1 + d2)
        | _ => none
  | .hashWord base, cs =>
      if base.isPrefixOf cs then
        match cs.drop base.length with
        | '_' :: rest2 =>
            let d := (rest2.takeWhile Char.isDigit).length
            if d = 0 then some base.length else some (base.length + 1 + d)
        | _ => some base.length
      else none
  | .wordRun, cs =>
      let n := (cs.takeWhile isWordChar).length
      if n = 0 then none else some n

/-- The token rule table `tokens` of the source, flattened in exactly
the declaration order of the nested Python dict (category by category,
variant by variant).  The alternation built by `token_pattern` tries
these branches in this order and takes the first structural match. -/
def tokens : List (String × String × Matcher) :=
  [ ("operator", "arrow", .lit "->".data),
    ("operator", "assign", .lit ":=".data),
    ("operator", "add", .lit "+".data),
    ("operator", "minus", .lit "-".data),
    ("operator", "divide", .lit "/".data),
    ("operator", "multiply", .lit "*".data),
    ("operator", "mod", .lit "%".data),
    ("operator", "and", .lit "&&".data),
    ("operator", "or", .lit "||".data),
    ("operator", "xor", .lit "^".data),
    ("operator", "bitwiseAnd", .lit "&".data),
    ("operator", "bitwiseOr", .lit "|".data),
    ("operator", "bitwiseXor", .lit "^".data),
    ("operator", "equals", .lit "=".data),
    ("operator", "notEquals", .lit "!=".data),
    ("operator", "equalsIgnoreCase", .lit "<=>".data),
    ("operator", "greaterOrEqual", .lit ">=".data),
    ("operator", "lessOrEqual", .lit "<=".data),
    ("operator", "least", .lit "<=".data),
    ("operator", "greater", .lit ">".data),
    ("operator", "lesser", .lit "<".data),
    ("operator", "concat", .lit "+".data),
    ("open", "larray", .lit "@(".data),
    ("open", "lparen", .lit "(".data),
    ("open", "lcurly", .lit "\x7b".data),
    ("open", "lsquare", .lit "[".data),
    ("close", "rparen", .lit ")".data),
    ("close", "rcurly", .lit "\x7d".data),
    ("close", "rsquare", .lit "]".data),
    ("sep", "comma", .lit ",".data),
    ("string", "apostrophe", .lit aposStr.data),
    ("string", "quotes", .lit "\"".data),
    ("string", "escape", .lit "\\".data),
    ("space", "space", .spaceRun),
    ("number", "number", .numberPat),
    ("word", "item", .hashWord "#item".data),
    ("word", "index", .hashWord "#index".data),
    ("word", "word", .wordRun) ]

/-- First rule of the table (in declaration order) matching at the
start of `cs`, with its match length: the semantics of
`token_pattern(tokens)` matched anchored at the scan position. -/
def firstMatchAux : List (String × String × Matcher) → List Char → Option (String × String × Nat)
  | [], _ => none
  | (t, v, m) :: rs, cs =>
      match matchLen m cs with
      | some n => some (t, v, n)
      | none => firstMatchAux rs cs

/-- First-match scan over the full rule table. -/
def firstMatch (cs : List Char) : Option (String × String × Nat) :=
  firstMatchAux tokens cs

/-- The per-line scan loop of `tokenize`: starting at offset `i` with
remaining characters `rest`, repeatedly take the first matching rule
and emit its token; when no rule matches, the source leaves the `while`
loop and its `assert i == len(line)` succeeds exactly when the line was
fully consumed (`none` embeds the bare `AssertionError` of a partly
consumed line).  The fuel argument only makes the recursion structural;
each match consumes at least one character, so the wrapper's fuel
`length + 1` is never exhausted. -/
def lexLineAux : Nat → Nat → List Char → Nat → Option (List TokenInfo)
  | 0, _, _, _ => none
  | fuel + 1, lineno, rest, i =>
      match firstMatch rest with
      | some (t, v, n) =>
          (lexLineAux fuel lineno (rest.drop n) (i + n)).map
            (⟨t, v, String.mk (rest.take n), i, i + n, lineno⟩ :: ·)
      | none => if rest.isEmpty then some [] else none

/-- Tokens of a single source line. -/
def lexLine (lineno : Nat) (cs : List Char) : Option (List TokenInfo) :=
  lexLineAux (cs.length + 1) lineno cs 0

/-- Python `str.splitlines` for inputs whose only line terminator is
the newline character (the only terminator the grammar's inputs use). -/
def splitlinesAux : List Char → List Char → List (List Char)
  | [], acc => if acc.isEmpty then [] else [acc.reverse]
  | '\n' :: cs, acc => acc.reverse :: splitlinesAux cs []
  | c :: cs, acc => splitlinesAux cs (c :: acc)

/-- Split a character list into lines, Python `splitlines` style. -/
def splitlines (cs : List Char) : List (List Char) :=
  splitlinesAux cs []

/-- The Python exceptions observable from the embedded code.
`assertionError` is the bare `assert` failure of `tokenize`;
`tokenError` is the source's `TokenError`; `attributeError` is the
`None.type` dereference in `parse_collection` when `get_token` falls
off the end of the stream; `nameError` is the unbound-variable error of
`_i` on an empty slice; `indexError` is an out-of-range subscript;
`typeError` covers both `froot`'s explicit `TypeError` and the unpack
of `None` when `parse_string` finds no terminator.  `fuelExhausted` is
the artificial out-of-fuel marker of this embedding (unreachable for
the fuel supplied by the wrappers on the inputs considered). -/
inductive PyError where
  | assertionError
  | tokenError (msg : String)
  | notImplementedError (msg : String)
  | attributeError
  | nameError
  | indexError
  | typeError (msg : String)
  | fuelExhausted
deriving Repr, DecidableEq

/-- Per-line tokenization of a list of lines, numbering from `lineno`. -/
def tokenizeLines : Nat → List (List Char) → Option (List TokenInfo)
  | _, [] => some []
  | lineno, l :: ls => do
      let ts ← lexLine lineno l
      let rest ← tokenizeLines (lineno + 1) ls
      pure (ts ++ rest)

/-- Embeds `tokenize(lines, pattern)` (run to completion, as
`parse` does through `list(...)`): lines are numbered from 1, each line
is scanned by first-match rules, and a line with an unmatched position
makes the whole call fail with the bare `AssertionError` of
`assert i == len(line)`. -/
def tokenize (s : String) : Except PyError (List TokenInfo) :=
  match tokenizeLines 1 (splitlines s.data) with
  | some ts => .ok ts
  | none => .error .assertionError

end SampleParser

namespace SampleParser

/-- Scalar payload of a leaf node.  `vstr` is a Python `str`; `vint`
the result of `int(...)`; `vfloat` keeps the literal text of the token
handed to `float(...)` (the grammar produces a float only from a
number token of shape `.digits`, and no property below depends on
float arithmetic). -/
inductive Value where
  | vstr (s : String)
  | vint (n : Int)
  | vfloat (text : String)
deriving Repr, DecidableEq

/-- Numeric value of a digit string. -/
def digitsVal (cs : List Char) : Nat :=
  cs.foldl (fun a c => 10 * a + (c.toNat - 48)) 0

/-- Embeds `number(string)`: `int(string)` when the text is a digit
string, otherwise `float(string)`. -/
def number (s : String) : Value :=
  if s.data ≠ [] ∧ s.data.all Char.isDigit then .vint (digitsVal s.data)
  else .vfloat s

/-- The AST.  `node tag value` embeds a `Node` (an element carrying a
`value` attribute and no children: tags `STR`, `NUM`, `VAR`, `OP`);
`coll tag children` embeds a `Collection` (an element with an ordered
child list).  Equality of the embedding is structural equality of the
trees, the comparison the specification states round-trip properties
with. -/
inductive Ast where
  | node (tag : String) (value : Value)
  | coll (tag : String) (children : List Ast)

/-- The element tag of a node of either shape. -/
def Ast.tag : Ast → String
  | .node t _ => t
  | .coll t _ => t

/-- Skip-whitespace scan underlying `get`, `_i` and `get_token`: the
first non-`space` token of `toks` together with the index just past it,
counting indices from `j`. -/
def getAux : List TokenInfo → Nat → Option (Nat × TokenInfo)
  | [], _ => none
  | t :: rest, j =>
      if t.type = "space" then getAux rest (j + 1) else some (j + 1, t)

/-- Embeds `get(tokens, i)`: next non-whitespace token from index `i`
and the index just past it, or `(-1, synthetic end token)` when only
whitespace (or nothing) remains.  The synthetic token carries the
hard-coded line number 1 of the source. -/
def get (tokens : List TokenInfo) (i : Nat) : Int × TokenInfo :=
  match getAux (tokens.drop i) i with
  | some (j, t) => ((j : Int), t)
  | none => (-1, ⟨"end", "end", "", i, i, 1⟩)

/-- Embeds `get_token(tokens, i)`: the next non-whitespace token, or
`none` when the Python function falls off its loop and returns `None`. -/
def get_token (tokens : List TokenInfo) (i : Nat) : Option TokenInfo :=
  (getAux (tokens.drop i) i).map Prod.snd

/-- Loop of `_i`: index just past the first non-space token; when the
slice is nonempty but all space, the index of its last token (the loop
variable after the `for` ends); on an empty slice the loop variable is
unbound and the source raises `NameError`. -/
def _iAux : List TokenInfo → Nat → Except PyError Nat
  | [], _ => .error .nameError
  | t :: rest, j =>
      if t.type ≠ "space" then .ok (j + 1)
      else
        match rest with
        | [] => .ok j
        | _ :: _ => _iAux rest (j + 1)

/-- Embeds `_i(tokens, i)`. -/
def _i (tokens : List TokenInfo) (i : Nat) : Except PyError Nat :=
  _iAux (tokens.drop i) i

/-- Loop of `parse_string`, walking `tokens[i:]` with index `j` and the
escape flag: a token whose variant equals the opening quote variant
`start` terminates the literal (unless the previous token was an
`escape` token, which clears the flag and skips the check); the value
is the concatenation of the raw token texts strictly between the
quotes, the escape tokens themselves included. -/
def parse_string_loop (tokens : List TokenInfo) (start : String) (i : Nat) :
    List TokenInfo → Nat → Bool → Option (Nat × Ast)
  | [], _, _ => none
  | token :: rest, j, escape =>
      if escape then parse_string_loop tokens start i rest (j + 1) false
      else if token.variant = start then
        some (j + 1, .node "STR"
          (.vstr (String.join (((tokens.drop i).take (j - i)).map (·.string)))))
      else if token.variant = "escape" then
        parse_string_loop tokens start i rest (j + 1) true
      else parse_string_loop tokens start i rest (j + 1) false

/-- Embeds `parse_string(tokens, i)`: the opening quote variant is read
from `tokens[i-1]` (every call site has `1 ≤ i ≤ len(tokens)`, so the
subscript is in range and Python's negative-index case is
unreachable); `none` embeds the `None` returned when no terminator is
found. -/
def parse_string (tokens : List TokenInfo) (i : Nat) : Option (Nat × Ast) :=
  match tokens.get? (i - 1) with
  | none => none
  | some prev => parse_string_loop tokens prev.variant i (tokens.drop i) i false

end SampleParser

namespace SampleParser

mutual

/-- Embeds `parse_collection(tokens, i)`: elements at function-expression
level until the next non-whitespace token is a `close` token, a comma
after an element consumed when present (so the separator is optional);
the returned index is `_i(tokens, i)`, just past the close token.  When
`get_token` runs off the stream it returns `None` and the source
dereferences `None.type`: the embedded `attributeError`. -/
def parse_collection : Nat → List TokenInfo → Nat → Except PyError (Nat × List Ast)
  | 0, _, _ => .error .fuelExhausted
  | fuel + 1, tokens, i =>
      match get_token tokens i with
      | none => .error .attributeError
      | some t =>
          if t.type = "close" then do
            let j ← _i tokens i
            .ok (j, [])
          else do
            let (i2, expr) ← parse_function_expression fuel tokens i
            let (j, token) := get tokens i2
            let i3 := if token.variant = "comma" then j.toNat else i2
            let (jEnd, rest) ← parse_collection fuel tokens i3
            .ok (jEnd, expr :: rest)
termination_by structural fuel _toks _i => fuel

/-- Embeds `parse_term(tokens, i)`.  The branches follow the source in
order: `word` makes a `VAR` leaf; `open` parses a collection and wraps
it as `LIST` (`[`) or `PAREN` (`(`), other open variants raise
`NotImplementedError` after the collection was parsed; `number` makes a
`NUM` leaf; `string` delegates to `parse_string` (whose `None` result
would fail tuple unpacking: the embedded `typeError`); unary `add` and
`minus` recurse into a term wrapped as `UNOP`; anything else raises the
source's `TokenError`. -/
def parse_term : Nat → List TokenInfo → Nat → Except PyError (Nat × Ast)
  | 0, _, _ => .error .fuelExhausted
  | fuel + 1, tokens, i =>
      let (j, token) := get tokens i
      if token.type = "word" then
        .ok (j.toNat, .node "VAR" (.vstr token.string))
      else if token.type = "open" then do
        let (i2, coll) ← parse_collection fuel tokens j.toNat
        if token.variant = "lsquare" then .ok (i2, .coll "LIST" coll)
        else if token.variant = "lparen" then .ok (i2, .coll "PAREN" coll)
        else .error (.notImplementedError token.variant)
      else if token.type = "number" then
        .ok (j.toNat, .node "NUM" (number token.string))
      else if token.type = "string" then
        match parse_string tokens j.toNat with
        | none => .error (.typeError "cannot unpack None")
        | some (i2, s) => .ok (i2, s)
      else if token.type = "operator" then
        if token.variant = "add" ∨ token.variant = "minus" then do
          let (i2, arg) ← parse_term fuel tokens j.toNat
          .ok (i2, .coll "UNOP" [.node "OP" (.vstr token.string), arg])
        else .error (.notImplementedError token.variant)
      else .error (.tokenError ("Invalid expression at " ++ token.variant))
termination_by structural fuel _toks _i => fuel

/-- The `while` loop of `parse_post_expression`: as long as the next
non-whitespace token is an `open` token, parse a collection and wrap
the accumulated left side as `CALL`/`ARGS` for `(` or `GET`/`KEY` for
`[`; any other open variant raises `NotImplementedError`. -/
def parse_post_loop : Nat → List TokenInfo → Nat → Ast → Except PyError (Nat × Ast)
  | 0, _, _, _ => .error .fuelExhausted
  | fuel + 1, tokens, i, left =>
      let (j, right) := get tokens i
      if right.type = "open" then do
        let (i2, coll) ← parse_collection fuel tokens j.toNat
        if right.variant = "lparen" then
          parse_post_loop fuel tokens i2 (.coll "CALL" [left, .coll "ARGS" coll])
        else if right.variant = "lsquare" then
          parse_post_loop fuel tokens i2 (.coll "GET" [left, .coll "KEY" coll])
        else .error (.notImplementedError right.variant)
      else .ok (i, left)
termination_by structural fuel _toks _i _left => fuel

/-- Embeds `parse_post_expression(tokens, i)`. -/
def parse_post_expression : Nat → List TokenInfo → Nat → Except PyError (Nat × Ast)
  | 0, _, _ => .error .fuelExhausted
  | fuel + 1, tokens, i => do
      let (i2, left) ← parse_term fuel tokens i
      parse_post_loop fuel tokens i2 left
termination_by structural fuel _toks _i => fuel

/-- The `while` loop of `parse_prod_expression` over `*` and `/`,
left-folding into `PRODOP` nodes; the right operand of each step is a
postfix expression. -/
def parse_prod_loop : Nat → List TokenInfo → Nat → Ast → Except PyError (Nat × Ast)
  | 0, _, _, _ => .error .fuelExhausted
  | fuel + 1, tokens, i, left =>
      let (j, mid) := get tokens i
      if mid.variant = "multiply" ∨ mid.variant = "divide" then do
        let (i2, right) ← parse_post_expression fuel tokens j.toNat
        parse_prod_loop fuel tokens i2
          (.coll "PRODOP" [left, .node "OP" (.vstr mid.string), right])
      else .ok (i, left)
termination_by structural fuel _toks _i _left => fuel

/-- Embeds `parse_prod_expression(tokens, i)`. -/
def parse_prod_expression : Nat → List TokenInfo → Nat → Except PyError (Nat × Ast)
  | 0, _, _ => .error .fuelExhausted
  | fuel + 1, tokens, i => do
      let (i2, left) ← parse_post_expression fuel tokens i
      parse_prod_loop fuel tokens i2 left
termination_by structural fuel _toks _i => fuel

/-- The `while` loop of `parse_sum_expression` over `+` and `-`,
left-folding into `SUMOP` nodes; the right operand of each step is a
product expression. -/
def parse_sum_loop : Nat → List TokenInfo → Nat → Ast → Except PyError (Nat × Ast)
  | 0, _, _, _ => .error .fuelExhausted
  | fuel + 1, tokens, i, left =>
      let (j, mid) := get tokens i
      if mid.variant = "add" ∨ mid.variant = "minus" then do
        let (i2, right) ← parse_prod_expression fuel tokens j.toNat
        parse_sum_loop fuel tokens i2
          (.coll "SUMOP" [left, .node "OP" (.vstr mid.string), right])
      else .ok (i, left)
termination_by structural fuel _toks _i _left => fuel

/-- Embeds `parse_sum_expression(tokens, i)`. -/
def parse_sum_expression : Nat → List TokenInfo → Nat → Except PyError (Nat × Ast)
  | 0, _, _ => .error .fuelExhausted
  | fuel + 1, tokens, i => do
      let (i2, left) ← parse_prod_expression fuel tokens i
      parse_sum_loop fuel tokens i2 left
termination_by structural fuel _toks _i => fuel

/-- The `while` loop of `parse_comp_expression` over `=`, `!=`, `>`,
`<`, left-folding into `COMPARE` nodes; the right operand of each step
is parsed by `parse_prod_expression`, one level below sum — the
asymmetry of the source. -/
def parse_comp_loop : Nat → List TokenInfo → Nat → Ast → Except PyError (Nat × Ast)
  | 0, _, _, _ => .error .fuelExhausted
  | fuel + 1, tokens, i, left =>
      let (j, mid) := get tokens i
      if mid.variant = "equals" ∨ mid.variant = "notEquals" ∨
          mid.variant = "greater" ∨ mid.variant = "lesser" then do
        let (i2, right) ← parse_prod_expression fuel tokens j.toNat
        parse_comp_loop fuel tokens i2
          (.coll "COMPARE" [left, .node "OP" (.vstr mid.string), right])
      else .ok (i, left)
termination_by structural fuel _toks _i _left => fuel

/-- Embeds `parse_comp_expression(tokens, i)`. -/
def parse_comp_expression : Nat → List TokenInfo → Nat → Except PyError (Nat × Ast)
  | 0, _, _ => .error .fuelExhausted
  | fuel + 1, tokens, i => do
      let (i2, left) ← parse_sum_expression fuel tokens i
      parse_comp_loop fuel tokens i2 left
termination_by structural fuel _toks _i => fuel

/-- The `while` loop of `parse_logical_expression` over `&&` and `||`,
left-folding into `LOGICAL` nodes; the right operand of each step is a
comparison expression. -/
def parse_logical_loop : Nat → List TokenInfo → Nat → Ast → Except PyError (Nat × Ast)
  | 0, _, _, _ => .error .fuelExhausted
  | fuel + 1, tokens, i, left =>
      let (j, mid) := get tokens i
      if mid.variant = "and" ∨ mid.variant = "or" then do
        let (i2, right) ← parse_comp_expression fuel tokens j.toNat
        parse_logical_loop fuel tokens i2
          (.coll "LOGICAL" [left, .node "OP" (.vstr mid.string), right])
      else .ok (i, left)
termination_by structural fuel _toks _i _left => fuel

/-- Embeds `parse_logical_expression(tokens, i)`. -/
def parse_logical_expression : Nat → List TokenInfo → Nat → Except PyError (Nat × Ast)
  | 0, _, _ => .error .fuelExhausted
  | fuel + 1, tokens, i => do
      let (i2, left) ← parse_comp_expression fuel tokens i
      parse_logical_loop fuel tokens i2 left
termination_by structural fuel _toks _i => fuel

/-- Embeds `parse_function_expression(tokens, i)`: a logical expression
optionally followed by `->` and a second logical expression, wrapped as
a two-child `FUNC` node. -/
def parse_function_expression : Nat → List TokenInfo → Nat → Except PyError (Nat × Ast)
  | 0, _, _ => .error .fuelExhausted
  | fuel + 1, tokens, i => do
      let (i2, left) ← parse_logical_expression fuel tokens i
      let (j, mid) := get tokens i2
      if mid.variant = "arrow" then do
        let (i3, right) ← parse_logical_expression fuel tokens j.toNat
        .ok (i3, .coll "FUNC" [left, right])
      else .ok (i2, left)
termination_by structural fuel _toks _i => fuel

end

/-- Embeds `parse_expression(tokens, i)`: a logical expression
optionally followed by `:=` and a second logical expression, wrapped as
a two-child `ASSIGN` node. -/
def parse_expression (fuel : Nat) (tokens : List TokenInfo) (i : Nat) :
    Except PyError (Nat × Ast) := do
  let (i2, left) ← parse_logical_expression fuel tokens i
  let (j, mid) := get tokens i2
  if mid.variant = "assign" then do
    let (i3, right) ← parse_logical_expression fuel tokens j.toNat
    .ok (i3, .coll "ASSIGN" [left, right])
  else .ok (i2, left)

/-- Fuel handed to the recursive descent by `parse`: each source-level
call either advances the token index or descends one bounded precedence
ladder, so this bound dominates the source's recursion depth on every
input the source itself can process. -/
def parseFuel (tokens : List TokenInfo) : Nat :=
  64 * (tokens.length + 1)

/-- Embeds `parse(text, pattern)`: tokenize the text with the compiled
rule table, then parse one expression from index 0 and return its AST,
discarding the returned index (and with it any unconsumed suffix of the
token stream). -/
def parse (text : String) : Except PyError Ast := do
  let toks ← tokenize text
  let (_, root) ← parse_expression (parseFuel toks) toks 0
  .ok root

end SampleParser

namespace SampleParser

/-- The `font_code` table of the source. -/
def font_code : List (String × Nat) :=
  [("roman", 0), ("bold", 1), ("italic", 3), ("underline", 4), ("blink", 5),
   ("mark", 7), ("strikethrough", 9), ("default", 0)]

/-- The `color_code` table of the source. -/
def color_code : List (String × Nat) :=
  [("black", 30), ("darkred", 31), ("darkgreen", 32), ("darkyellow", 33),
   ("blue", 34), ("darkmagenta", 35), ("darkcyan", 36),
   ("lightgrey", 37), ("lightgray", 37), ("grey", 38), ("gray", 38),
   ("darkgrey", 90), ("darkgray", 90), ("red", 91), ("green", 92),
   ("yellow", 93), ("violet", 94), ("magenta", 95), ("cyan", 96),
   ("white", 97), ("default", 38)]

/-- The `background_colors` table of the source. -/
def background_colors : List (String × Nat) :=
  [("none", 40), ("black", 40), ("red", 41), ("green", 42), ("yellow", 43),
   ("blue", 44), ("magenta", 45), ("cyan", 46), ("white", 47)]

/-- Python `table.get(key)` for the style tables, with `None` keys. -/
def lookupCode (table : List (String × Nat)) : Option String → Option Nat
  | none => none
  | some k => (table.find? (·.1 = k)).map (·.2)

/-- Embeds `tag(codes)`: the ANSI escape prefix. -/
def tag (codes : String) : String :=
  "\x1b[" ++ codes ++ "m"

/-- Embeds `END`. -/
def END : String := tag "0"

/-- Embeds `code_style(string, codes)`: Python `filter(None, codes)`
drops both `None` entries and the code 0, the rest are joined with
semicolons between the escape prefix and the reset suffix. -/
def code_style (s : String) (codes : List (Option Nat)) : String :=
  let kept := (codes.filterMap id).filter (· ≠ 0)
  tag (String.intercalate ";" (kept.map toString)) ++ s ++ END

/-- Embeds `style(string, **codes)`; the source passes the looked-up
codes to `code_style` in the order color, font, background. -/
def style (s : String) (font color bg : Option String) : String :=
  code_style s [lookupCode color_code color, lookupCode font_code font,
    lookupCode background_colors bg]

/-- Python `str(...)` on the leaf values the grammar produces:
the identity on strings, decimal notation for the non-negative
integers of `NUM` leaves.  A float value arises only from a number
token of shape `.digits`; its CPython `str` is `0.` followed by those
digits with trailing zeros removed, for the short literals the grammar
meets (no property below evaluates a float leaf). -/
def valueStr : Value → String
  | .vstr s => s
  | .vint n => toString n
  | .vfloat t =>
      let ds := (t.data.drop 1).reverse.dropWhile (· = '0') |>.reverse
      if ds.isEmpty then "0.0" else "0." ++ String.mk ds

mutual

/-- Embeds `froot(el, indent)` in the compact mode `indent=False`, the
mode of the round-trip property (the indented branches differ only in
inserted layout whitespace).  Branches appear in source order; tags
`NUM`, `VAR` and `STR` wrap their text in the ANSI styles
`NUM_STYLE`, `VAR_STYLE`, `STR_STYLE` through `style`; a tag matching
no branch raises the source's `TypeError`.  The source dispatches on
the tag alone; tags `OP`, `NUM`, `VAR`, `STR` occur in parser output
only as value leaves and all other tags only as collections, so only
those shapes are embedded (a two-child access on a shorter child list
is the source's `IndexError`, reachable for an empty `PAREN`). -/
def frootF : Nat → Ast → Except PyError String
  | 0, _ => .error .fuelExhausted
  | fuel + 1, el =>
      match el with
      | .coll "UNOP" cs => do
          .ok (String.intercalate "" (← frootListF fuel cs))
      | .coll "PRODOP" cs => do
          .ok (String.intercalate "" (← frootListF fuel cs))
      | .coll "SUMOP" cs => do
          .ok (String.intercalate " " (← frootListF fuel cs))
      | .coll "COMPARE" cs => do
          .ok (String.intercalate " " (← frootListF fuel cs))
      | .coll "FUNC" cs =>
          match cs with
          | a :: b :: _ => do
              .ok ((← frootF fuel a) ++ " -> " ++ (← frootF fuel b))
          | _ => .error .indexError
      | .coll "ASSIGN" cs =>
          match cs with
          | a :: b :: _ => do
              .ok ((← frootF fuel a) ++ " := " ++ (← frootF fuel b))
          | _ => .error .indexError
      | .node "OP" v => .ok (valueStr v)
      | .coll "CALL" cs =>
          match cs with
          | a :: b :: _ => do
              .ok ((← frootF fuel a) ++ "(" ++ (← frootF fuel b) ++ ")")
          | _ => .error .indexError
      | .coll "GET" cs =>
          match cs with
          | a :: b :: _ => do
              .ok ((← frootF fuel a) ++ "[" ++ (← frootF fuel b) ++ "]")
          | _ => .error .indexError
      | .coll "PAREN" cs =>
          match cs with
          | a :: _ => do
              .ok ("(" ++ (← frootF fuel a) ++ ")")
          | [] => .error .indexError
      | .coll "LIST" cs => do
          .ok ("[" ++ String.intercalate ", " (← frootListF fuel cs) ++ "]")
      | .coll "ARGS" cs => do
          .ok (String.intercalate ", " (← frootListF fuel cs))
      | .coll "KEY" cs => do
          .ok (String.intercalate ", " (← frootListF fuel cs))
      | .node "NUM" v => .ok (style (valueStr v) none (some "magenta") none)
      | .node "VAR" v => .ok (style (valueStr v) (some "bold") (some "yellow") none)
      | .node "STR" v =>
          .ok (style (aposStr ++ valueStr v ++ aposStr) none (some "green") none)
      | el => .error (.typeError ("Invalid type " ++ el.tag))
termination_by structural fuel _el => fuel

/-- Renders each child in order, the child list analogue of the
generator expressions inside `froot`. -/
def frootListF : Nat → List Ast → Except PyError (List String)
  | 0, _ => .error .fuelExhausted
  | _ + 1, [] => .ok []
  | fuel + 1, a :: as => do
      .ok ((← frootF fuel a) :: (← frootListF fuel as))
termination_by structural fuel _cs => fuel

end

/-- Fuel for `froot`: far beyond both the depth of every tree treated
here and CPython's own recursion limit. -/
def frootFuel : Nat := 10000

/-- Compact rendering of an AST: `froot(el, indent=False)`. -/
def froot (el : Ast) : Except PyError String :=
  frootF frootFuel el

end SampleParser

namespace SampleParser

/-- A `takeWhile` prefix is no longer than the list. -/
theorem takeWhile_len_le (p : Char → Bool) : ∀ l : List Char, (l.takeWhile p).length ≤ l.length
  | [] => Nat.le_refl 0
  | a :: l => by
    simp only [List.takeWhile]
    split
    · simpa using takeWhile_len_le p l
    · simp

/-- A boolean prefix is no longer than the list. -/
theorem isPrefixOf_len_le : ∀ l m : List Char, l.isPrefixOf m = true → l.length ≤ m.length
  | [], _, _ => Nat.zero_le _
  | _ :: _, [], h => by simp [List.isPrefixOf] at h
  | a :: l, b :: m, h => by
    simp only [List.isPrefixOf, Bool.and_eq_true] at h
    simpa using isPrefixOf_len_le l m h.2

/-- No rule matches more characters than remain on the line. -/
theorem matchLen_le (m : Matcher) (cs : List Char) (n : Nat)
    (h : matchLen m cs = some n) : n ≤ cs.length := by
  cases m with
  | lit s =>
      simp only [matchLen] at h
      split at h
      · cases h
        exact isPrefixOf_len_le s cs (by assumption)
      · cases h
  | spaceRun =>
      simp only [matchLen] at h
      split at h
      · cases h
      · cases h
        exact takeWhile_len_le _ _
  | numberPat =>
      simp only [matchLen] at h
      split at h
      · cases h
        exact takeWhile_len_le _ _
      · split at h
        · rename_i cs2 hcond
          split at h
          · cases h
          · cases h
            have := takeWhile_len_le Char.isDigit cs2
            simp only [List.length_cons]
            omega
        · cases h
  | hashWord base =>
      simp only [matchLen] at h
      split at h
      · rename_i hpre
        have hbase := isPrefixOf_len_le base cs hpre
        split at h
        · rename_i c rest2 heq
          have hdroplen : (cs.drop base.length).length = cs.length - base.length :=
            List.length_drop _ _
          rw [heq] at hdroplen
          have := takeWhile_len_le Char.isDigit rest2
          split at h
          · cases h
            exact hbase
          · cases h
            simp only [List.length_cons] at hdroplen
            omega
        · cases h
          exact hbase
      · cases h
  | wordRun =>
      simp only [matchLen] at h
      split at h
      · cases h
      · cases h
        exact takeWhile_len_le _ _

/-- First-match over any rule list matches within the line. -/
theorem firstMatchAux_le :
    ∀ (rs : List (String × String × Matcher)) (cs : List Char) (t v : String) (n : Nat),
      firstMatchAux rs cs = some (t, v, n) → n ≤ cs.length
  | [], _, _, _, _, h => by cases h
  | (t0, v0, m0) :: rs, cs, t, v, n, h => by
    simp only [firstMatchAux] at h
    cases hm : matchLen m0 cs with
    | some k =>
        rw [hm] at h
        cases h
        exact matchLen_le m0 cs n hm
    | none =>
        rw [hm] at h
        exact firstMatchAux_le rs cs t v n h

/-- The winning rule of the table matches within the line. -/
theorem firstMatch_le (cs : List Char) (t v : String) (n : Nat)
    (h : firstMatch cs = some (t, v, n)) : n ≤ cs.length :=
  firstMatchAux_le tokens cs t v n h

/-- Contiguous coverage: `covers a ts b` holds when the first token of
`ts` starts at offset `a`, each later token starts where its
predecessor stopped, and the last token stops at `b` (with `a = b` for
an empty list). -/
def covers : Nat → List TokenInfo → Nat → Bool
  | a, [], b => a == b
  | a, t :: rest, b => (t.start == a) && covers t.stop rest b

/-- Main loop invariant of the tokenizer: the tokens emitted from
offset `i` with remaining characters `rest` cover `[i, i + len rest)`
contiguously. -/
theorem lexLineAux_covers (lineno : Nat) :
    ∀ (fuel : Nat) (rest : List Char) (i : Nat) (toks : List TokenInfo),
      lexLineAux fuel lineno rest i = some toks →
      covers i toks (i + rest.length) = true := by
  intro fuel
  induction fuel with
  | zero => intro rest i toks h; cases h
  | succ fuel ih =>
      intro rest i toks h
      unfold lexLineAux at h
      split at h
      · rename_i t v n hfm
        cases hrec : lexLineAux fuel lineno (rest.drop n) (i + n) with
        | none => rw [hrec] at h; cases h
        | some toks2 =>
            rw [hrec] at h
            simp only [Option.map] at h
            cases h
            have hcov := ih (rest.drop n) (i + n) toks2 hrec
            have hle : n ≤ rest.length := firstMatch_le rest t v n hfm
            have hlen : (rest.drop n).length = rest.length - n := List.length_drop _ _
            rw [hlen] at hcov
            have harith : i + n + (rest.length - n) = i + rest.length := by omega
            rw [harith] at hcov
            simp [covers, hcov]
      · rename_i hfm
        split at h
        · cases h
          rename_i hemp
          have : rest = [] := by simpa [List.isEmpty_iff] using hemp
          subst this
          simp [covers]
        · cases h

/-- Per-line coverage: when a line tokenizes, its tokens cover the whole
line from offset 0. -/
theorem lexLine_covers (lineno : Nat) (cs : List Char) (toks : List TokenInfo)
    (h : lexLine lineno cs = some toks) : covers 0 toks cs.length = true := by
  have := lexLineAux_covers lineno (cs.length + 1) cs 0 toks h
  simpa using this

/-- A text `tokenize` accepts had every one of its lines accepted by the
per-line scanner. -/
theorem tokenizeLines_accepts :
    ∀ (ls : List (List Char)) (lineno : Nat) (ts : List TokenInfo),
      tokenizeLines lineno ls = some ts →
      ∀ l ∈ ls, ∃ (ln : Nat) (toks : List TokenInfo), lexLine ln l = some toks
  | [], _, _, _, _, hl => by cases hl
  | l0 :: ls, lineno, ts, h, l, hl => by
    simp only [tokenizeLines, Option.bind_eq_bind, Option.bind_eq_some] at h
    obtain ⟨ts1, h1, ts2, h2, -⟩ := h
    cases hl with
    | head => exact ⟨lineno, ts1, h1⟩
    | tail _ hmem => exact tokenizeLines_accepts ls (lineno + 1) ts2 h2 l hmem

end SampleParser

namespace SampleParser

/-- Destructor for a successful `Except` bind. -/
theorem bind_ok {ε α β : Type} (x : Except ε α) (f : α → Except ε β) (b : β)
    (h : x.bind f = .ok b) : ∃ a, x = .ok a ∧ f a = .ok b := by
  cases x with
  | error e => simp [Except.bind] at h
  | ok a => exact ⟨a, rfl, by simpa [Except.bind] using h⟩

/-- The string sub-parser only builds `STR` leaves. -/
theorem parse_string_loop_tag (tokens : List TokenInfo) (start : String) (i : Nat) :
    ∀ (ts : List TokenInfo) (j : Nat) (esc : Bool) (j2 : Nat) (e : Ast),
      parse_string_loop tokens start i ts j esc = some (j2, e) → e.tag = "STR"
  | [], _, _, _, _, h => by cases h
  | token :: rest, j, esc, j2, e, h => by
    unfold parse_string_loop at h
    split at h
    · exact parse_string_loop_tag tokens start i rest (j + 1) false j2 e h
    · split at h
      · cases h
        rfl
      · split at h
        · exact parse_string_loop_tag tokens start i rest (j + 1) true j2 e h
        · exact parse_string_loop_tag tokens start i rest (j + 1) false j2 e h

/-- `parse_string` only builds `STR` leaves. -/
theorem parse_string_tag (tokens : List TokenInfo) (i j : Nat) (e : Ast)
    (h : parse_string tokens i = some (j, e)) : e.tag = "STR" := by
  unfold parse_string at h
  split at h
  · cases h
  · exact parse_string_loop_tag tokens _ i _ i false j e h

end SampleParser
namespace SampleParser

/-- Destructor for a successful monadic bind over `Except`. -/
theorem bindM_ok {ε α β : Type} (x : Except ε α) (f : α → Except ε β) (b : β)
    (h : (x >>= f) = .ok b) : ∃ a, x = .ok a ∧ f a = .ok b :=
  bind_ok x f b h

/-- A term never carries an operator-fold tag: its tag is one of the
six primary shapes. -/
theorem parse_term_tag (fuel : Nat) (toks : List TokenInfo) (i j : Nat) (e : Ast)
    (h : parse_term fuel toks i = .ok (j, e)) :
    e.tag = "VAR" ∨ e.tag = "LIST" ∨ e.tag = "PAREN" ∨ e.tag = "NUM" ∨
      e.tag = "STR" ∨ e.tag = "UNOP" := by
  cases fuel with
  | zero => cases h
  | succ fuel =>
    unfold parse_term at h
    split at h
    split at h
    · cases h
      exact Or.inl rfl
    · split at h
      · obtain ⟨a, hc, h2⟩ := bindM_ok _ _ _ h
        split at h2
        split at h2
        · cases h2
          exact Or.inr (Or.inl rfl)
        · split at h2
          · cases h2
            exact Or.inr (Or.inr (Or.inl rfl))
          · cases h2
      · split at h
        · cases h
          exact Or.inr (Or.inr (Or.inr (Or.inl rfl)))
        · split at h
          · split at h
            · cases h
            · rename_i hps
              cases h
              exact Or.inr (Or.inr (Or.inr (Or.inr (Or.inl
                (parse_string_tag toks _ _ _ hps)))))
          · split at h
            · split at h
              · obtain ⟨a, hc, h2⟩ := bindM_ok _ _ _ h
                split at h2
                cases h2
                exact Or.inr (Or.inr (Or.inr (Or.inr (Or.inr rfl))))
              · cases h
            · cases h

end SampleParser

namespace SampleParser

/-- Safety predicate used for the comparison-level right operand: the
node is neither a sum fold nor a comparison fold. -/
def prodSafe (e : Ast) : Prop :=
  e.tag ≠ "SUMOP" ∧ e.tag ≠ "COMPARE"

/-- Terms are neither sum nor comparison folds. -/
theorem parse_term_prodSafe (fuel : Nat) (toks : List TokenInfo) (i j : Nat) (e : Ast)
    (h : parse_term fuel toks i = .ok (j, e)) : prodSafe e := by
  rcases parse_term_tag fuel toks i j e h with h' | h' | h' | h' | h' | h' <;>
    exact ⟨by simp [h'], by simp [h']⟩

/-- The postfix loop preserves `prodSafe`: it returns its left operand
or wraps it into `CALL`/`GET` collections. -/
theorem parse_post_loop_prodSafe :
    ∀ (fuel : Nat) (toks : List TokenInfo) (i : Nat) (left : Ast) (j : Nat) (e : Ast),
      parse_post_loop fuel toks i left = .ok (j, e) → prodSafe left → prodSafe e := by
  intro fuel
  induction fuel with
  | zero => intro toks i left j e h _; cases h
  | succ fuel ih =>
      intro toks i left j e h hleft
      unfold parse_post_loop at h
      split at h
      split at h
      · obtain ⟨a, hc, h2⟩ := bindM_ok _ _ _ h
        split at h2
        split at h2
        · exact ih toks _ _ _ _ h2 ⟨by simp [Ast.tag], by simp [Ast.tag]⟩
        · split at h2
          · exact ih toks _ _ _ _ h2 ⟨by simp [Ast.tag], by simp [Ast.tag]⟩
          · cases h2
      · cases h
        exact hleft

/-- Postfix expressions are neither sum nor comparison folds. -/
theorem parse_post_prodSafe (fuel : Nat) (toks : List TokenInfo) (i j : Nat) (e : Ast)
    (h : parse_post_expression fuel toks i = .ok (j, e)) : prodSafe e := by
  cases fuel with
  | zero => cases h
  | succ fuel =>
      unfold parse_post_expression at h
      obtain ⟨a, hc, h2⟩ := bindM_ok _ _ _ h
      split at h2
      rename_i i2 left
      exact parse_post_loop_prodSafe fuel toks i2 left j e h2
        (parse_term_prodSafe fuel toks i i2 left hc)

/-- The product loop preserves `prodSafe`: it returns its left operand
or wraps it into `PRODOP` collections. -/
theorem parse_prod_loop_prodSafe :
    ∀ (fuel : Nat) (toks : List TokenInfo) (i : Nat) (left : Ast) (j : Nat) (e : Ast),
      parse_prod_loop fuel toks i left = .ok (j, e) → prodSafe left → prodSafe e := by
  intro fuel
  induction fuel with
  | zero => intro toks i left j e h _; cases h
  | succ fuel ih =>
      intro toks i left j e h hleft
      unfold parse_prod_loop at h
      split at h
      split at h
      · obtain ⟨a, hc, h2⟩ := bindM_ok _ _ _ h
        split at h2
        exact ih toks _ _ _ _ h2 ⟨by simp [Ast.tag], by simp [Ast.tag]⟩
      · cases h
        exact hleft

/-- A product expression is neither a sum fold nor a comparison fold:
this is the shape `parse_comp_expression` hands to the right side of
every comparison operator. -/
theorem parse_prod_prodSafe (fuel : Nat) (toks : List TokenInfo) (i j : Nat) (e : Ast)
    (h : parse_prod_expression fuel toks i = .ok (j, e)) : prodSafe e := by
  cases fuel with
  | zero => cases h
  | succ fuel =>
      unfold parse_prod_expression at h
      obtain ⟨a, hc, h2⟩ := bindM_ok _ _ _ h
      split at h2
      rename_i i2 left
      exact parse_prod_loop_prodSafe fuel toks i2 left j e h2
        (parse_post_prodSafe fuel toks i i2 left hc)

/-- The sum loop never produces a comparison fold when fed none. -/
theorem parse_sum_loop_ne_compare :
    ∀ (fuel : Nat) (toks : List TokenInfo) (i : Nat) (left : Ast) (j : Nat) (e : Ast),
      parse_sum_loop fuel toks i left = .ok (j, e) → left.tag ≠ "COMPARE" →
      e.tag ≠ "COMPARE" := by
  intro fuel
  induction fuel with
  | zero => intro toks i left j e h _; cases h
  | succ fuel ih =>
      intro toks i left j e h hleft
      unfold parse_sum_loop at h
      split at h
      split at h
      · obtain ⟨a, hc, h2⟩ := bindM_ok _ _ _ h
        split at h2
        exact ih toks _ _ _ _ h2 (by simp [Ast.tag])
      · cases h
        exact hleft

/-- A sum expression is never a comparison fold. -/
theorem parse_sum_ne_compare (fuel : Nat) (toks : List TokenInfo) (i j : Nat) (e : Ast)
    (h : parse_sum_expression fuel toks i = .ok (j, e)) : e.tag ≠ "COMPARE" := by
  cases fuel with
  | zero => cases h
  | succ fuel =>
      unfold parse_sum_expression at h
      obtain ⟨a, hc, h2⟩ := bindM_ok _ _ _ h
      split at h2
      rename_i i2 left
      exact parse_sum_loop_ne_compare fuel toks i2 left j e h2
        (parse_prod_prodSafe fuel toks i i2 left hc).2

/-- Right-operand property of comparison folds: every `COMPARE`
collection the node could be has a right child that is not a sum
fold. -/
def compOk (e : Ast) : Prop :=
  ∀ a b r : Ast, e = .coll "COMPARE" [a, b, r] → r.tag ≠ "SUMOP"

/-- The comparison loop establishes `compOk`: every `COMPARE` node it
builds takes its right child from `parse_prod_expression`. -/
theorem parse_comp_loop_compOk :
    ∀ (fuel : Nat) (toks : List TokenInfo) (i : Nat) (left : Ast) (j : Nat) (e : Ast),
      parse_comp_loop fuel toks i left = .ok (j, e) → compOk left → compOk e := by
  intro fuel
  induction fuel with
  | zero => intro toks i left j e h _; cases h
  | succ fuel ih =>
      intro toks i left j e h hleft
      unfold parse_comp_loop at h
      split at h
      split at h
      · obtain ⟨a, hc, h2⟩ := bindM_ok _ _ _ h
        split at h2
        rename_i i2 right
        refine ih toks _ _ _ _ h2 ?_
        intro a' b' r' heq
        cases heq
        exact (parse_prod_prodSafe fuel toks _ i2 right hc).1
      · cases h
        exact hleft

/-- Every comparison expression satisfies `compOk`: its left seed comes
from the sum level (never tagged `COMPARE`), and each fold step feeds
the right side from the product level. -/
theorem parse_comp_compOk (fuel : Nat) (toks : List TokenInfo) (i j : Nat) (e : Ast)
    (h : parse_comp_expression fuel toks i = .ok (j, e)) : compOk e := by
  cases fuel with
  | zero => cases h
  | succ fuel =>
      unfold parse_comp_expression at h
      obtain ⟨a, hc, h2⟩ := bindM_ok _ _ _ h
      split at h2
      rename_i i2 left
      refine parse_comp_loop_compOk fuel toks i2 left j e h2 ?_
      intro a' b' r' heq
      have := parse_sum_ne_compare fuel toks i i2 left hc
      rw [heq] at this
      simp [Ast.tag] at this

end SampleParser

namespace SampleParser

/-- The only failure the tokenizer can raise is the bare assertion. -/
theorem tokenize_error_is_assertion (s : String) (e : PyError)
    (h : tokenize s = .error e) : e = .assertionError := by
  unfold tokenize at h
  split at h
  · cases h
  · cases h
    rfl

/-- Acceptance by `tokenize` is acceptance of the token-list match. -/
theorem tokenize_ok_lines (s : String) (ts : List TokenInfo)
    (h : tokenize s = .ok ts) : tokenizeLines 1 (splitlines s.data) = some ts := by
  unfold tokenize at h
  split at h
  · cases h
    assumption
  · cases h

/-- Past the end of the token list, `get` returns the synthetic `end`
token with index `-1`. -/
theorem get_past_end (toks : List TokenInfo) (i : Nat) (h : toks.length ≤ i) :
    get toks i = (-1, ⟨"end", "end", "", i, i, 1⟩) := by
  unfold get
  rw [List.drop_eq_nil_of_le h]
  rfl

end SampleParser

namespace SampleParser

/-- C1 counterexample: for the valid input `1`, rendering the parse in
compact mode and re-tokenizing fails outright (the rendered text wraps
the numeral in ANSI style codes, and the escape character matches no
token rule), so the re-parsed AST cannot equal the original one. -/
theorem C1_reparse_render_fails :
    (do
      let a ← parse "1"
      let s ← froot a
      parse s) = .error .assertionError ∧
    parse "1" = .ok (.node "NUM" (.vint 1)) ∧
    (Except.error PyError.assertionError : Except PyError Ast) ≠
      .ok (.node "NUM" (.vint 1)) :=
  ⟨rfl, rfl, fun h => Except.noConfusion h⟩

/-- C1 amended: the parse-render-parse round trip does not hold for
all valid inputs.  For the input `1`, re-parsing the compact rendering
fails lexically, because `froot` wraps the `NUM` leaf in ANSI style
codes that match no token rule; for the input `()`, the rendering
itself already fails, `froot` raising `IndexError` on the childless
`PAREN` node; for the input `[ [],[[]] ]`, the round trip does hold:
the compact rendering `[[], [[]]]` re-parses to the structurally equal
AST even though the rendered text differs from the original text. -/
theorem C1_roundtrip_not_universal :
    (do
      let a ← parse "1"
      let s ← froot a
      parse s) = .error .assertionError ∧
    parse "()" = .ok (.coll "PAREN" []) ∧
    froot (.coll "PAREN" []) = .error .indexError ∧
    parse "[ [],[[]] ]" =
      .ok (.coll "LIST" [.coll "LIST" [], .coll "LIST" [.coll "LIST" []]]) ∧
    froot (.coll "LIST" [.coll "LIST" [], .coll "LIST" [.coll "LIST" []]]) =
      .ok "[[], [[]]]" ∧
    parse "[[], [[]]]" =
      .ok (.coll "LIST" [.coll "LIST" [], .coll "LIST" [.coll "LIST" []]]) ∧
    "[[], [[]]]" ≠ "[ [],[[]] ]" :=
  ⟨rfl, rfl, rfl, rfl, rfl, rfl, by decide⟩

/-- C2 counterexample: on the bare `@` (no rule matches at offset 0)
the tokenizer fails through its `assert` with a payload-free
`AssertionError`; no distinct lexical-error kind carrying a line
number and an offset exists in the code. -/
theorem C2_counterexample : tokenize "@" = .error .assertionError := rfl

/-- C2 amended: a line containing a position where no token rule
matches makes `tokenize` fail, but the failure is the bare assertion
`assert i == len(line)` — the only error the tokenizer can produce —
carrying neither an error kind of its own nor a line number or
offset. -/
theorem C2_lex_failure_is_bare_assert :
    tokenize "@" = .error .assertionError ∧
    tokenize "hello @ world" = .error .assertionError ∧
    ∀ (s : String) (e : PyError), tokenize s = .error e → e = .assertionError :=
  ⟨rfl, rfl, tokenize_error_is_assertion⟩

/-- Witness for the universally quantified part of
`C2_lex_failure_is_bare_assert`, instantiated at the failing input
`@`. -/
theorem C2_lex_failure_is_bare_assert_witness :
    PyError.assertionError = PyError.assertionError :=
  C2_lex_failure_is_bare_assert.2.2 "@" .assertionError
    C2_lex_failure_is_bare_assert.1

end SampleParser

namespace SampleParser

/-- C3 counterexample: parsing the literal input `'w\"orld'` yields an
`STR` leaf whose value keeps the backslash, `w\"orld` — not the
claimed `w"orld`. -/
theorem C3_counterexample :
    parse (aposStr ++ "w\\\"orld" ++ aposStr) =
      .ok (.node "STR" (.vstr "w\\\"orld")) ∧
    "w\\\"orld" ≠ "w\"orld" :=
  ⟨rfl, by decide⟩

/-- C3 amended: on input `'w\"orld'` the escaped quote is literal
content rather than a terminator (the double-quote character occurs
inside the resulting `STR` value), but the escape character itself is
also part of the value: the value is exactly `w\"orld`. -/
theorem C3_escaped_quote_is_content :
    parse (aposStr ++ "w\\\"orld" ++ aposStr) =
      .ok (.node "STR" (.vstr "w\\\"orld")) ∧
    "w\\\"orld".data.contains (Char.ofNat 34) = true :=
  ⟨rfl, by decide⟩

/-- C4: the right operand of a comparison operator is parsed at product
precedence.  Concretely `a = b + c` yields `COMPARE` with right child
`VAR b`; in general the right child of every `COMPARE` collection a
comparison expression returns is never a `SUMOP`. -/
theorem C4_compare_right_is_product :
    parse "a = b + c" = .ok (.coll "COMPARE"
      [.node "VAR" (.vstr "a"), .node "OP" (.vstr "="), .node "VAR" (.vstr "b")]) ∧
    ∀ (fuel : Nat) (toks : List TokenInfo) (i j : Nat) (e : Ast),
      parse_comp_expression fuel toks i = .ok (j, e) →
      ∀ a b r : Ast, e = .coll "COMPARE" [a, b, r] → r.tag ≠ "SUMOP" :=
  ⟨rfl, fun fuel toks i j e h a b r heq =>
    parse_comp_compOk fuel toks i j e h a b r heq⟩

/-- Witness for the universally quantified part of
`C4_compare_right_is_product`, instantiated on the token stream of
`a = b`. -/
theorem C4_compare_right_is_product_witness :
    Ast.tag (.node "VAR" (.vstr "b")) ≠ "SUMOP" :=
  C4_compare_right_is_product.2 64
    [⟨"word", "word", "a", 0, 1, 1⟩, ⟨"space", "space", " ", 1, 2, 1⟩,
     ⟨"operator", "equals", "=", 2, 3, 1⟩, ⟨"space", "space", " ", 3, 4, 1⟩,
     ⟨"word", "word", "b", 4, 5, 1⟩] 0 5
    (.coll "COMPARE"
      [.node "VAR" (.vstr "a"), .node "OP" (.vstr "="), .node "VAR" (.vstr "b")])
    rfl (.node "VAR" (.vstr "a")) (.node "OP" (.vstr "="))
    (.node "VAR" (.vstr "b")) rfl

/-- C5: overlapping rules resolve to the first declared variant:
`<=` lexes as `lessOrEqual`, declared before `least`, and `^` lexes as
`xor`, declared before `bitwiseXor`. -/
theorem C5_first_declared_variant_wins :
    tokenize "<=" = .ok [⟨"operator", "lessOrEqual", "<=", 0, 2, 1⟩] ∧
    tokenize "^" = .ok [⟨"operator", "xor", "^", 0, 1, 1⟩] :=
  ⟨rfl, rfl⟩

/-- C6: the parser produces a `LOGICAL` collection for `a && b`, but
`froot` has no `LOGICAL` branch and raises `TypeError` on it instead of
space-joining its children. -/
theorem C6_logical_render_raises :
    parse "a && b" = .ok (.coll "LOGICAL"
      [.node "VAR" (.vstr "a"), .node "OP" (.vstr "&&"), .node "VAR" (.vstr "b")]) ∧
    froot (.coll "LOGICAL"
      [.node "VAR" (.vstr "a"), .node "OP" (.vstr "&&"), .node "VAR" (.vstr "b")]) =
      .error (.typeError "Invalid type LOGICAL") :=
  ⟨rfl, rfl⟩

/-- C7 counterexample: parsing the unclosed collection `[1, 2` fails
with the `AttributeError` of dereferencing the `None` returned by
`get_token`, an error outside the specified parse-error kinds. -/
theorem C7_counterexample : parse "[1, 2" = .error .attributeError := rfl

/-- C7 amended: `get` does treat end-of-stream as a synthetic `end`
token and never reads out of bounds, but `get_token` simply returns
`None` there, so parsing an unclosed collection such as `[1, 2` fails
with an `AttributeError` rather than one of the specified error
kinds. -/
theorem C7_get_end_synthetic :
    (∀ (toks : List TokenInfo) (i : Nat), toks.length ≤ i →
      get toks i = (-1, ⟨"end", "end", "", i, i, 1⟩)) ∧
    parse "[1, 2" = .error .attributeError :=
  ⟨get_past_end, rfl⟩

/-- Witness for the universally quantified part of
`C7_get_end_synthetic`, instantiated at the empty token list. -/
theorem C7_get_end_synthetic_witness :
    get [] 0 = (-1, ⟨"end", "end", "", 0, 0, 1⟩) :=
  C7_get_end_synthetic.1 [] 0 (Nat.le_refl 0)

/-- C8: on every line the tokenizer accepts, the emitted tokens cover
the line contiguously: the first starts at offset 0, each next token
starts where the previous stopped, and the last stops at the line
length; and every line of a text `tokenize` accepts is such a line. -/
theorem C8_tokens_cover_line :
    (∀ (lineno : Nat) (cs : List Char) (toks : List TokenInfo),
        lexLine lineno cs = some toks → covers 0 toks cs.length = true) ∧
    (∀ (s : String) (ts : List TokenInfo), tokenize s = .ok ts →
        ∀ l ∈ splitlines s.data, ∃ (lineno : Nat) (toks : List TokenInfo),
          lexLine lineno l = some toks ∧ covers 0 toks l.length = true) := by
  constructor
  · exact lexLine_covers
  · intro s ts hts l hl
    obtain ⟨ln, toks, htoks⟩ :=
      tokenizeLines_accepts _ 1 ts (tokenize_ok_lines s ts hts) l hl
    exact ⟨ln, toks, htoks, lexLine_covers ln l toks htoks⟩

/-- Witness for `C8_tokens_cover_line`, instantiated on the accepted
line `a + 1` (whitespace tokens included in the coverage). -/
theorem C8_tokens_cover_line_witness :
    covers 0 [⟨"word", "word", "a", 0, 1, 1⟩, ⟨"space", "space", " ", 1, 2, 1⟩,
      ⟨"operator", "add", "+", 2, 3, 1⟩, ⟨"space", "space", " ", 3, 4, 1⟩,
      ⟨"number", "number", "1", 4, 5, 1⟩] ("a + 1".data.length) = true :=
  C8_tokens_cover_line.1 1 "a + 1".data
    [⟨"word", "word", "a", 0, 1, 1⟩, ⟨"space", "space", " ", 1, 2, 1⟩,
     ⟨"operator", "add", "+", 2, 3, 1⟩, ⟨"space", "space", " ", 3, 4, 1⟩,
     ⟨"number", "number", "1", 4, 5, 1⟩] rfl

/-- C9: `parse` returns after one expression and silently discards
unconsumed trailing tokens: `a = b + c` leaves `+ c` unread and equals
the parse of the consumed prefix `a = b`; `a % b` leaves `% b` unread
(no level handles `mod`) and equals the parse of `a`. -/
theorem C9_trailing_tokens_discarded :
    parse "a = b + c" = .ok (.coll "COMPARE"
      [.node "VAR" (.vstr "a"), .node "OP" (.vstr "="), .node "VAR" (.vstr "b")]) ∧
    parse "a = b + c" = parse "a = b" ∧
    parse "a % b" = .ok (.node "VAR" (.vstr "a")) ∧
    parse "a % b" = parse "a" :=
  have h1 : parse "a = b + c" = .ok (.coll "COMPARE"
      [.node "VAR" (.vstr "a"), .node "OP" (.vstr "="), .node "VAR" (.vstr "b")]) := rfl
  have h2 : parse "a = b" = .ok (.coll "COMPARE"
      [.node "VAR" (.vstr "a"), .node "OP" (.vstr "="), .node "VAR" (.vstr "b")]) := rfl
  have h3 : parse "a % b" = .ok (.node "VAR" (.vstr "a")) := rfl
  have h4 : parse "a" = .ok (.node "VAR" (.vstr "a")) := rfl
  ⟨h1, h1.trans h2.symm, h3, h3.trans h4.symm⟩

/-- C10: inside collection literals the comma separator is optional:
`[1 2]` parses to the same two-element `LIST` as `[1, 2]`. -/
theorem C10_separator_optional :
    parse "[1 2]" = .ok (.coll "LIST"
      [.node "NUM" (.vint 1), .node "NUM" (.vint 2)]) ∧
    parse "[1 2]" = parse "[1, 2]" :=
  have h1 : parse "[1 2]" = .ok (.coll "LIST"
      [.node "NUM" (.vint 1), .node "NUM" (.vint 2)]) := rfl
  have h2 : parse "[1, 2]" = .ok (.coll "LIST"
      [.node "NUM" (.vint 1), .node "NUM" (.vint 2)]) := rfl
  ⟨h1, h1.trans h2.symm⟩

end SampleParser
